import Mathlib

/-!
Shallow embedding of the ><> interpreter (`src/fish/fish.go`) and proofs about
its stack, stack-of-stacks, pointer-movement and dispatch semantics.

Modelling conventions:
  - Go `float64` stack cells are modelled as `ℚ`.  Every claim checked here
    exercises only small integers and one exact division (8/2), where `float64`
    and `ℚ` arithmetic agree; float-only behaviour (rounding, infinities from
    float division by zero, NaN) is outside the claims and not modelled.
  - Go panics (empty-stack pop, out-of-range slice index, the dispatch default
    case, the integer divide-by-zero of `%`, closing the bottom stack) are
    modelled as `Except Fault` errors; the `recover` in `CodeBox.Swim` halts
    the run, so a fault value is exactly "the run stops here".
  - Go slices are modelled by value (`List ℚ`).  For the instruction traces
    verified below this coincides with the source's slice-aliasing behaviour,
    which was re-traced by hand at each concrete counterexample.
  - The two external collaborators (the random generator behind `x` and the
    non-blocking stdin queue behind `i`) are passed in as an explicit `Env`.
  - Output (`o`, `n`) goes to an external collaborator and is not recorded;
    only its stack effect (the pop) is modelled.
-/

/-- Direction a ><> is swimming (fish.go `type Direction`). -/
inductive Direction where
  | Right
  | Down
  | Left
  | Up
deriving DecidableEq, Repr

/-- Runtime faults.  In the Go source these are panics, all recovered in
`CodeBox.Swim`, which prints diagnostics and exits the process. -/
inductive Fault where
  | EmptyStack
  | BadIndex
  | InvalidInstruction
  | NoParentStack
  | DivideByZero
deriving DecidableEq, Repr

/-- Load-time error: `NewCodeBox` panics on a script with no room for the fish. -/
inductive LoadError where
  | EmptyProgram
deriving DecidableEq, Repr

/-- Stack (fish.go lines 25-29): cell values `S`, plus a register that is only
considered filled when `filledRegister` is set. -/
structure Stack where
  S : List ℚ
  register : ℚ
  filledRegister : Bool
deriving DecidableEq, Repr

/-- NewStack (fish.go lines 32-34): a stack populated with `s` (register fields
at their Go zero values). -/
def NewStack (s : List ℚ) : Stack :=
  { S := s, register := 0, filledRegister := false }

/-- Push (fish.go lines 92-94): append `r` to the end of the stack. -/
def Stack.Push (s : Stack) (r : ℚ) : Stack :=
  { s with S := s.S ++ [r] }

/-- Pop (fish.go lines 97-105): remove and return the value at the end;
the Go code panics ("Stack is empty!") when the stack has no elements. -/
def Stack.Pop (s : Stack) : Except Fault (ℚ × Stack) :=
  match s.S.reverse with
  | r :: rest => .ok (r, { s with S := rest.reverse })
  | [] => .error .EmptyStack

/-- Register (fish.go lines 37-45, instruction `&`): if the register is filled,
push its value and mark it empty; otherwise pop into the register. -/
def Stack.Register (s : Stack) : Except Fault Stack :=
  if s.filledRegister then
    .ok { (s.Push s.register) with filledRegister := false }
  else
    match s.Pop with
    | .ok (r, s') => .ok { s' with register := r, filledRegister := true }
    | .error e => .error e

/-- Extend (fish.go lines 48-50, instruction `:`): push a copy of `S[len-1]`;
indexing an empty slice panics in Go. -/
def Stack.Extend (s : Stack) : Except Fault Stack :=
  match s.S.reverse with
  | t :: _ => .ok (s.Push t)
  | [] => .error .BadIndex

/-- Reverse (fish.go lines 53-59, instruction `r`). -/
def Stack.Reverse (s : Stack) : Stack :=
  { s with S := s.S.reverse }

/-- SwapTwo (fish.go lines 62-66, instruction `$`): exchange `S[len-1]` and
`S[len-2]`.  Matching on the reversed list, the Go assignments exchange the
first two entries. -/
def Stack.SwapTwo (s : Stack) : Except Fault Stack :=
  match s.S.reverse with
  | a :: b :: rest => .ok { s with S := (b :: a :: rest).reverse }
  | _ => .error .BadIndex

/-- SwapThree (fish.go lines 69-75, instruction `@`).  With the reversed stack
`a :: b :: c :: rest` (`a` the top), the Go assignments are
`S[len-1] = b`, `S[len-2] = S[len-3] = c`, `S[len-3] = a`, i.e. the reversed
result is `b :: c :: a :: rest`.  The source's own doc comment: with
`[1,2,3,4]`, calling `@` results in `[1,4,2,3]`. -/
def Stack.SwapThree (s : Stack) : Except Fault Stack :=
  match s.S.reverse with
  | a :: b :: c :: rest => .ok { s with S := (b :: c :: a :: rest).reverse }
  | _ => .error .BadIndex

/-- ShiftRight (fish.go lines 78-82, instruction `}`): pop the top element and
reinsert it at index 0. -/
def Stack.ShiftRight (s : Stack) : Except Fault Stack :=
  match s.S.reverse with
  | a :: rest => .ok { s with S := a :: rest.reverse }
  | [] => .error .EmptyStack

/-- ShiftLeft (fish.go lines 85-89, instruction `\x7b`): remove `S[0]` and push
it on top; indexing an empty slice panics in Go. -/
def Stack.ShiftLeft (s : Stack) : Except Fault Stack :=
  match s.S with
  | r :: rest => .ok { s with S := rest ++ [r] }
  | [] => .error .BadIndex

/-- longestLineLength (fish.go lines 107-114). -/
def longestLineLength (lines : List (List Char)) : Nat :=
  lines.foldl (fun l s => if s.length > l then s.length else l) 0

/-- stripCR models `strings.Replace(script, CR, empty, -1)` (fish.go line 134):
remove every carriage-return character. -/
def stripCR (script : List Char) : List Char :=
  script.filter (fun c => c ≠ '\r')

/-- splitLines models `strings.Split(script, LF)` (fish.go line 139): split on
newline characters; the empty script yields one empty line. -/
def splitLines : List Char → List (List Char)
  | [] => [[]]
  | c :: cs =>
    if c = '\n' then [] :: splitLines cs
    else
      match splitLines cs with
      | [] => [[c]]
      | l :: ls => (c :: l) :: ls

-- Sanity checks for the line splitter (Go: Split("a\nb") = ["a","b"],
-- Split("a\n") = ["a",""], Split("") = [""]).
example : splitLines ['a', '\n', 'b'] = [['a'], ['b']] := by decide
example : splitLines ['a', '\n'] = [['a'], []] := by decide
example : splitLines [] = [[]] := by decide

/-- CodeBox (fish.go lines 118-127): the program grid plus all execution
state.  `p` is the active-stack index (`int` in Go; it only becomes negative
at the `stacks[-1]` panic of `CloseStack`, which is modelled as the
`NoParentStack` fault, so `Nat` suffices).  `stringMode` is the active
string-literal delimiter (`byte` in Go, with 0 meaning none). -/
structure CodeBox where
  fX : Int
  fY : Int
  fDir : Direction
  width : Nat
  height : Nat
  box : List (List Char)
  stks : List Stack
  p : Nat
  stringMode : Option Char
  compMode : Bool
deriving DecidableEq, Repr

/-- NewCodeBox (fish.go lines 131-160): strip carriage returns, reject a
script that is empty (or a lone newline), split into lines, and space-pad
every row to the longest line length. -/
def NewCodeBox (script : List Char) (stack : List ℚ) (compatibilityMode : Bool) :
    Except LoadError CodeBox :=
  let script := stripCR script
  if script = [] ∨ script = ['\n'] then
    .error .EmptyProgram
  else
    let lines := splitLines script
    let width := longestLineLength lines
    let box := lines.map (fun s => (List.range width).map (fun ii => s.getD ii ' '))
    .ok { fX := 0, fY := 0, fDir := .Right, width := width, height := lines.length,
          box := box, stks := [NewStack stack], p := 0,
          stringMode := none, compMode := compatibilityMode }

/-- idxGet models Go slice indexing with an `int` index: an out-of-range
index panics. -/
def idxGet (l : List α) (i : Int) : Except Fault α :=
  if h : 0 ≤ i ∧ i.toNat < l.length then .ok (l.get ⟨i.toNat, h.2⟩)
  else .error .BadIndex

/-- idxSet models Go slice element assignment with an `int` index. -/
def idxSet (l : List α) (i : Int) (a : α) : Except Fault (List α) :=
  if 0 ≤ i ∧ i.toNat < l.length then .ok (l.set i.toNat a)
  else .error .BadIndex

/-- natGet is `idxGet` for the `Nat`-typed indices into `stacks`. -/
def natGet (l : List α) (i : Nat) : Except Fault α :=
  match l.get? i with
  | some a => .ok a
  | none => .error .BadIndex

/-- curStack: `cB.stks[cB.p]`. -/
def CodeBox.curStack (cB : CodeBox) : Except Fault Stack :=
  natGet cB.stks cB.p

/-- setStack: write back the active stack. -/
def CodeBox.setStack (cB : CodeBox) (s : Stack) : CodeBox :=
  { cB with stks := cB.stks.set cB.p s }

/-- modStack: run a Stack operation on the active stack (the common shape of
the fish.go wrapper methods in lines 392-424). -/
def CodeBox.modStack (cB : CodeBox) (f : Stack → Except Fault Stack) :
    Except Fault CodeBox := do
  let s ← cB.curStack
  let s' ← f s
  .ok (cB.setStack s')

/-- Push (fish.go lines 377-379): push onto the current stack. -/
def CodeBox.Push (cB : CodeBox) (r : ℚ) : Except Fault CodeBox := do
  let s ← cB.curStack
  .ok (cB.setStack (s.Push r))

/-- Pop (fish.go lines 382-384): pop from the current stack. -/
def CodeBox.Pop (cB : CodeBox) : Except Fault (ℚ × CodeBox) := do
  let s ← cB.curStack
  let (r, s') ← s.Pop
  .ok (r, cB.setStack s')

/-- StackLength (fish.go lines 387-389, instruction `l`). -/
def CodeBox.StackLength (cB : CodeBox) : Except Fault ℚ := do
  let s ← cB.curStack
  .ok (s.S.length : ℚ)

/-- activeValues: the cell values of the active stack (fish.go `Stack()`
accessor, lines 372-374, which underlies the diagnostics dump). -/
def CodeBox.activeValues (cB : CodeBox) : Except Fault (List ℚ) :=
  (cB.curStack).map Stack.S

/-- CloseStack (fish.go lines 427-433, instruction `]`): decrement `p` (Go
then indexes `stacks[-1]` and panics when the bottom stack is closed); in
compatibility mode the closed stack is reversed in place first; then its
elements are appended to the now-active stack.  The closed stack stays in
the `stacks` slice as a reusable slot. -/
def CodeBox.CloseStack (cB : CodeBox) : Except Fault CodeBox :=
  match cB.p with
  | 0 => .error .NoParentStack
  | q + 1 => do
    let closed ← natGet cB.stks (q + 1)
    let closed := if cB.compMode then closed.Reverse else closed
    let parent ← natGet cB.stks q
    .ok { cB with
          p := q,
          stks := ((cB.stks.set (q + 1) closed).set q
            { parent with S := parent.S ++ closed.S }) }

/-- NewStack instruction (fish.go lines 436-448, instruction `[`): increment
`p`; slice the top `n` elements off the parent (Go panics when the slice
index `len-n` is out of range).  When `p` runs past the end of `stacks` a
fresh stack is appended and the parent is truncated; otherwise the cached
slot at index `p` is reused: its values are replaced by the slice and its
register marked empty — and the Go code does NOT truncate the parent in
this branch.  In compatibility mode the new active stack is then reversed. -/
def CodeBox.NewStack (cB : CodeBox) (n : Int) : Except Fault CodeBox := do
  let parent ← natGet cB.stks cB.p
  if 0 ≤ n ∧ n.toNat ≤ parent.S.length then
    let moved := parent.S.drop (parent.S.length - n.toNat)
    let p' := cB.p + 1
    let cB' ←
      if p' = cB.stks.length then
        .ok { cB with
              p := p',
              stks := (cB.stks.set cB.p
                  { parent with S := parent.S.take (parent.S.length - n.toNat) })
                ++ [{ S := moved, register := 0, filledRegister := false }] }
      else do
        let cached ← natGet cB.stks p'
        .ok { cB with
              p := p',
              stks := cB.stks.set p'
                { cached with S := moved, filledRegister := false } }
    if cB'.compMode then
      cB'.modStack (fun s => .ok s.Reverse)
    else
      .ok cB'
  else .error .BadIndex

/-- Move (fish.go lines 326-349): advance the fish one cell in the current
direction, wrapping around the grid edges. -/
def CodeBox.Move (cB : CodeBox) : CodeBox :=
  match cB.fDir with
  | .Right =>
    let x := cB.fX + 1
    { cB with fX := if x ≥ (cB.width : Int) then 0 else x }
  | .Down =>
    let y := cB.fY + 1
    { cB with fY := if y ≥ (cB.height : Int) then 0 else y }
  | .Left =>
    let x := cB.fX - 1
    { cB with fX := if x < 0 then (cB.width : Int) - 1 else x }
  | .Up =>
    let y := cB.fY - 1
    { cB with fY := if y < 0 then (cB.height : Int) - 1 else y }

/-- ratTrunc models the Go conversions `int(f)` and `int64(f)` on a float64:
truncation toward zero. -/
def ratTrunc (q : ℚ) : Int :=
  q.num.tdiv (q.den : Int)

/-- Env supplies the effects of the two external collaborators for one
instruction: the direction the random generator would hand to `x`, and the
pending input byte (if any) the non-blocking queue would hand to `i`. -/
structure Env where
  rand : Direction
  inp : Option Nat
deriving DecidableEq, Repr

/-- noHalt tags a successful state change as "not a termination". -/
def noHalt (e : Except Fault CodeBox) : Except Fault (CodeBox × Bool) :=
  e.map (fun c => (c, false))

/-- toggleQuote (fish.go lines 225-230, the case for the two quote bytes):
entering string mode records the delimiter, the matching delimiter leaves it. -/
def CodeBox.toggleQuote (cB : CodeBox) (r : Char) : CodeBox :=
  match cB.stringMode with
  | none => { cB with stringMode := some r }
  | some q => if r = q then { cB with stringMode := none } else cB

/-- Exe (fish.go lines 163-323): execute one instruction byte; the returned
flag is true exactly when the instruction was `;`.  The Go default case
panics on any unknown byte. -/
def CodeBox.Exe (cB : CodeBox) (env : Env) (r : Char) : Except Fault (CodeBox × Bool) :=
  match r with
  | ' ' => .ok (cB, false)
  | ';' => .ok (cB, true)
  | '>' => .ok ({ cB with fDir := .Right }, false)
  | 'v' => .ok ({ cB with fDir := .Down }, false)
  | '<' => .ok ({ cB with fDir := .Left }, false)
  | '^' => .ok ({ cB with fDir := .Up }, false)
  | '|' =>
    .ok ({ cB with fDir :=
      if cB.fDir = .Right then .Left
      else if cB.fDir = .Left then .Right
      else cB.fDir }, false)
  | '_' =>
    .ok ({ cB with fDir :=
      if cB.fDir = .Down then .Up
      else if cB.fDir = .Up then .Down
      else cB.fDir }, false)
  | '#' =>
    .ok ({ cB with fDir :=
      match cB.fDir with
      | .Right => .Left
      | .Down => .Up
      | .Left => .Right
      | .Up => .Down }, false)
  | '/' =>
    .ok ({ cB with fDir :=
      match cB.fDir with
      | .Right => .Up
      | .Down => .Left
      | .Left => .Down
      | .Up => .Right }, false)
  | '\\' =>
    .ok ({ cB with fDir :=
      match cB.fDir with
      | .Right => .Down
      | .Down => .Right
      | .Left => .Up
      | .Up => .Left }, false)
  | 'x' => .ok ({ cB with fDir := env.rand }, false)
  | '"' => .ok (cB.toggleQuote '"', false)
  | '\'' => .ok (cB.toggleQuote '\'', false)
  | '0' | '1' | '2' | '3' | '4' | '5' | '6' | '7' | '8' | '9' =>
    noHalt (cB.Push ((r.toNat - '0'.toNat : Nat) : ℚ))
  | 'a' | 'b' | 'c' | 'd' | 'e' | 'f' =>
    noHalt (cB.Push ((r.toNat - 'a'.toNat + 10 : Nat) : ℚ))
  | '&' => noHalt (cB.modStack Stack.Register)
  | 'o' => noHalt (do
      let (_, cB1) ← cB.Pop
      .ok cB1)
  | 'n' => noHalt (do
      let (_, cB1) ← cB.Pop
      .ok cB1)
  | 'r' => noHalt (cB.modStack (fun s => .ok s.Reverse))
  | '+' => noHalt (do
      let (x, cB1) ← cB.Pop
      let (y, cB2) ← cB1.Pop
      cB2.Push (x + y))
  | '-' => noHalt (do
      let (x, cB1) ← cB.Pop
      let (y, cB2) ← cB1.Pop
      cB2.Push (y - x))
  | '*' => noHalt (do
      let (x, cB1) ← cB.Pop
      let (y, cB2) ← cB1.Pop
      cB2.Push (x * y))
  | ',' => noHalt (do
      let (x, cB1) ← cB.Pop
      let (y, cB2) ← cB1.Pop
      cB2.Push (y / x))
  | '%' => noHalt (do
      let (x, cB1) ← cB.Pop
      let (y, cB2) ← cB1.Pop
      -- Go `int64(y) % int64(x)` is a run-time panic when the divisor
      -- truncates to zero; otherwise it is the truncated (T-style) modulo.
      if ratTrunc x = 0 then .error .DivideByZero
      else cB2.Push (((ratTrunc y).tmod (ratTrunc x) : Int) : ℚ))
  | '=' => noHalt (do
      let (x, cB1) ← cB.Pop
      let (y, cB2) ← cB1.Pop
      cB2.Push (if x = y then 1 else 0))
  | ')' => noHalt (do
      let (x, cB1) ← cB.Pop
      let (y, cB2) ← cB1.Pop
      cB2.Push (if y > x then 1 else 0))
  | '(' => noHalt (do
      let (x, cB1) ← cB.Pop
      let (y, cB2) ← cB1.Pop
      cB2.Push (if y < x then 1 else 0))
  | '!' => .ok (cB.Move, false)
  | '?' => noHalt (do
      let (x, cB1) ← cB.Pop
      .ok (if x = 0 then cB1.Move else cB1))
  | '.' => noHalt (do
      let (yv, cB1) ← cB.Pop
      let (xv, cB2) ← cB1.Pop
      .ok { cB2 with fY := ratTrunc yv, fX := ratTrunc xv })
  | ':' => noHalt (cB.modStack Stack.Extend)
  | '~' => noHalt (do
      let (_, cB1) ← cB.Pop
      .ok cB1)
  | '$' => noHalt (cB.modStack Stack.SwapTwo)
  | '@' => noHalt (cB.modStack Stack.SwapThree)
  | '}' => noHalt (cB.modStack Stack.ShiftRight)
  | '{' => noHalt (cB.modStack Stack.ShiftLeft)
  | ']' => noHalt cB.CloseStack
  | '[' => noHalt (do
      let (n, cB1) ← cB.Pop
      cB1.NewStack (ratTrunc n))
  | 'l' => noHalt (do
      let len ← cB.StackLength
      cB.Push len)
  | 'g' => noHalt (do
      let (yv, cB1) ← cB.Pop
      let row ← idxGet cB1.box (ratTrunc yv)
      let (xv, cB2) ← cB1.Pop
      let c ← idxGet row (ratTrunc xv)
      cB2.Push ((c.toNat : ℚ)))
  | 'p' => noHalt (do
      let (yv, cB1) ← cB.Pop
      let (xv, cB2) ← cB1.Pop
      let (v, cB3) ← cB2.Pop
      let row ← idxGet cB3.box (ratTrunc yv)
      let row' ← idxSet row (ratTrunc xv) (Char.ofNat (((ratTrunc v) % 256).toNat))
      let box' ← idxSet cB3.box (ratTrunc yv) row'
      .ok { cB3 with box := box' })
  | 'i' => noHalt
      (match env.inp with
       | some b => cB.Push ((b : ℚ))
       | none => cB.Push (-1))
  | _ => .error .InvalidInstruction

/-- dispatchMove: the tail of one Swim cycle (fish.go lines 364-368): run the
instruction; on `;` report termination with no further movement, otherwise
advance the pointer. -/
def CodeBox.dispatchMove (cB : CodeBox) (env : Env) (r : Char) :
    Except Fault (CodeBox × Bool) := do
  let (cB1, halt) ← cB.Exe env r
  if halt then .ok (cB1, true) else .ok (cB1.Move, false)

/-- Swim (fish.go lines 352-369): one cycle: fetch `box[fY][fX]`; if a string
delimiter is active and the byte is not the matching delimiter, push the
byte value; otherwise dispatch; then move (unless terminated).  The Go
`recover` turns any fault into a diagnostic dump and process exit, modelled
by the `Except` error. -/
def CodeBox.Swim (cB : CodeBox) (env : Env) : Except Fault (CodeBox × Bool) := do
  let row ← idxGet cB.box cB.fY
  let r ← idxGet row cB.fX
  match cB.stringMode with
  | some q =>
    if r = q then cB.dispatchMove env r
    else do
      let cB1 ← cB.Push ((r.toNat : ℚ))
      .ok (cB1.Move, false)
  | none => cB.dispatchMove env r

/-- RunN: drive Swim one cycle per entry of `envs`, stopping at termination
or at a fault (whose Go counterpart exits the process). -/
def CodeBox.RunN (cB : CodeBox) : List Env → Except Fault (CodeBox × Bool)
  | [] => .ok (cB, false)
  | e :: es => do
    let (cB', halt) ← cB.Swim e
    if halt then .ok (cB', true) else cB'.RunN es

/-! Test fixtures shared by the claim theorems below. -/

/-- baseBox: a minimal loaded 1-by-1 codebox (a single space cell) holding a
given initial stack; identical to what `NewCodeBox` builds for a one-space
script. -/
def baseBox (comp : Bool) (s : List ℚ) : CodeBox :=
  { fX := 0, fY := 0, fDir := .Right, width := 1, height := 1,
    box := [[' ']], stks := [NewStack s], p := 0,
    stringMode := none, compMode := comp }

/-- env0: a fixed environment for instructions that consult no collaborator. -/
def env0 : Env := { rand := .Right, inp := none }

/-- natGet_lt: a successful stack-slot lookup implies the index is in range. -/
theorem natGet_lt {α : Type} {l : List α} {i : Nat} {a : α}
    (h : natGet l i = .ok a) : i < l.length := by
  by_contra hn
  have hnone : l[i]? = none := List.getElem?_eq_none (Nat.le_of_not_lt hn)
  simp [natGet, hnone] at h

/-- natGet_set_self: looking up the slot just written returns the new value. -/
theorem natGet_set_self {α : Type} {l : List α} {i : Nat} (h : i < l.length)
    (x : α) : natGet (l.set i x) i = .ok x := by
  simp [natGet, List.getElem?_set_eq_of_lt x h]

/-- natGet_ok: successful lookup is exactly an in-range `getElem`. -/
theorem natGet_ok {α : Type} {l : List α} {i : Nat} {a : α}
    (h : natGet l i = .ok a) : l[i]? = some a := by
  revert h
  unfold natGet
  cases hg : l[i]? <;> simp [hg]

/-- C1 counterexample: on the stack [1,2,3,4] (bottom to top) the source's
rotate-top-three yields [1,4,2,3] — not [1,3,4,2] as the claim states. -/
theorem swapThree_1234_counterexample :
    Stack.SwapThree (NewStack [1, 2, 3, 4]) = .ok (NewStack [1, 4, 2, 3]) ∧
      (NewStack [1, 4, 2, 3]).S ≠ [1, 3, 4, 2] := by
  constructor
  · rfl
  · norm_num [NewStack]

/-- C1 (amended): for every stack with at least three elements, written
bottom-to-top as rest ++ [x, y, z], the rotate instruction `@` yields
rest ++ [z, x, y]: the old top z moves to the bottom of the triple, the old
second y becomes the new top, and the old third x becomes the new middle
(so [1,2,3,4] yields [1,4,2,3]). -/
theorem swapThree_rotation (rest : List ℚ) (x y z reg : ℚ) (fl : Bool) :
    Stack.SwapThree ⟨rest ++ [x, y, z], reg, fl⟩ =
      .ok ⟨rest ++ [z, x, y], reg, fl⟩ := by
  simp [Stack.SwapThree]

/-- C9: with the register empty and the stack non-empty (bottom-to-top
rest ++ [v]), applying `&` twice consecutively restores the stack contents
and leaves the register marked empty. -/
theorem register_roundtrip (rest : List ℚ) (v reg0 : ℚ) :
    (Stack.Register ⟨rest ++ [v], reg0, false⟩ >>= Stack.Register) =
      .ok ⟨rest ++ [v], v, false⟩ := by
  simp [Stack.Register, Stack.Pop, Stack.Push, Bind.bind, Except.bind]

/-- pairSplitClose: on a fresh machine whose active stack is s, run the `[`
split (n is the already-popped instruction argument) immediately followed
by `]`, and report the resulting active stack values. -/
def pairSplitClose (comp : Bool) (s : List ℚ) (n : Int) : Except Fault (List ℚ) := do
  let cB1 ← (baseBox comp s).NewStack n
  let cB2 ← cB1.CloseStack
  cB2.activeValues

/-- C2 counterexample: in compatibility mode, splitting the top two elements
of [1,2,3,4,5] and immediately closing yields [1,2,3,4,5] again (the
reversal at split time is undone by the reversal at close time) — not
[1,2,3,5,4] as the claim states. -/
theorem newClose_comp_counterexample :
    pairSplitClose true [1, 2, 3, 4, 5] 2 = .ok [1, 2, 3, 4, 5] ∧
      ([1, 2, 3, 4, 5] : List ℚ) ≠ [1, 2, 3, 5, 4] := by
  constructor
  · rfl
  · norm_num

/-- C2 (amended): from active stack [1,2,3,4,5], new_stack with argument 2
followed immediately by close_stack yields [1,2,3,4,5] in compatibility
mode and non-compatibility mode alike: the close-time reversal undoes the
split-time reversal. -/
theorem newClose_split_close_id :
    pairSplitClose false [1, 2, 3, 4, 5] 2 = .ok [1, 2, 3, 4, 5] ∧
      pairSplitClose true [1, 2, 3, 4, 5] 2 = .ok [1, 2, 3, 4, 5] :=
  ⟨rfl, rfl⟩

/-- c10Trace: from the initial stack [1,2,3], run `[` with argument 1 then
`]`, twice.  The first pair takes the fresh-slot branch of NewStack; the
`]` leaves the closed stack cached, so the second `[` takes the slot-reuse
branch — which copies the top element into the cached slot WITHOUT
truncating the parent. -/
def c10Trace : Except Fault (List ℚ) := do
  let c1 ← (baseBox false [1, 2, 3]).NewStack 1
  let c2 ← c1.CloseStack
  let c3 ← c2.NewStack 1
  let c4 ← c3.CloseStack
  c4.activeValues

/-- C10: the code violates the claim.  After a first `[`(1)/`]` pair has
left a cached stack slot, a second `[`(1)/`]` pair on active stack [1,2,3]
yields [1,2,3,3]: the slot-reuse branch of NewStack fails to remove the
moved elements from the parent, so closing duplicates them instead of
restoring the original sequence. -/
theorem newStack_reuse_duplicates :
    c10Trace = .ok [1, 2, 3, 3] ∧ ([1, 2, 3, 3] : List ℚ) ≠ [1, 2, 3] := by
  constructor
  · rfl
  · norm_num


/-! Definitional reduction lemmas for `Exe` at the dispatched bytes the
claim proofs use; they let `simp` avoid re-reducing the dispatch tree. -/

theorem Exe_add (cB : CodeBox) (env : Env) :
    cB.Exe env '+' = noHalt (do
      let (x, cB1) ← cB.Pop
      let (y, cB2) ← cB1.Pop
      cB2.Push (x + y)) := rfl

theorem Exe_sub (cB : CodeBox) (env : Env) :
    cB.Exe env '-' = noHalt (do
      let (x, cB1) ← cB.Pop
      let (y, cB2) ← cB1.Pop
      cB2.Push (y - x)) := rfl

theorem Exe_mul (cB : CodeBox) (env : Env) :
    cB.Exe env '*' = noHalt (do
      let (x, cB1) ← cB.Pop
      let (y, cB2) ← cB1.Pop
      cB2.Push (x * y)) := rfl

theorem Exe_div (cB : CodeBox) (env : Env) :
    cB.Exe env ',' = noHalt (do
      let (x, cB1) ← cB.Pop
      let (y, cB2) ← cB1.Pop
      cB2.Push (y / x)) := rfl

theorem Exe_mod (cB : CodeBox) (env : Env) :
    cB.Exe env '%' = noHalt (do
      let (x, cB1) ← cB.Pop
      let (y, cB2) ← cB1.Pop
      if ratTrunc x = 0 then .error .DivideByZero
      else cB2.Push (((ratTrunc y).tmod (ratTrunc x) : Int) : ℚ)) := rfl

theorem Exe_eqInstr (cB : CodeBox) (env : Env) :
    cB.Exe env '=' = noHalt (do
      let (x, cB1) ← cB.Pop
      let (y, cB2) ← cB1.Pop
      cB2.Push (if x = y then 1 else 0)) := rfl

theorem Exe_gt (cB : CodeBox) (env : Env) :
    cB.Exe env ')' = noHalt (do
      let (x, cB1) ← cB.Pop
      let (y, cB2) ← cB1.Pop
      cB2.Push (if y > x then 1 else 0)) := rfl

theorem Exe_lt (cB : CodeBox) (env : Env) :
    cB.Exe env '(' = noHalt (do
      let (x, cB1) ← cB.Pop
      let (y, cB2) ← cB1.Pop
      cB2.Push (if y < x then 1 else 0)) := rfl

theorem Exe_dot (cB : CodeBox) (env : Env) :
    cB.Exe env '.' = noHalt (do
      let (yv, cB1) ← cB.Pop
      let (xv, cB2) ← cB1.Pop
      .ok { cB2 with fY := ratTrunc yv, fX := ratTrunc xv }) := rfl

theorem Exe_tilde (cB : CodeBox) (env : Env) :
    cB.Exe env '~' = noHalt (do
      let (_, cB1) ← cB.Pop
      .ok cB1) := rfl

theorem Exe_doubleQuote (cB : CodeBox) (env : Env) :
    cB.Exe env '"' = .ok (cB.toggleQuote '"', false) := rfl

theorem Exe_singleQuote (cB : CodeBox) (env : Env) :
    cB.Exe env '\'' = .ok (cB.toggleQuote '\'', false) := rfl

/-- C7: for every binary arithmetic and comparison instruction, the first
pop is the right operand and the second pop the left operand: with the
active stack rest ++ [b, a] (a on top), the instruction pushes b OP a onto
rest; `%` truncates both operands toward zero (as Go's float-to-int64
conversion does) before the Go-style (truncated) modulo — when the divisor
truncates to zero the integer modulo is a Go run-time panic, so standing in
for a pushed value the cycle faults and the run halts.  Concretely, [5,2]
under `-` yields [3] and [8,2] under `,` yields [4]. -/
theorem binary_ops_operand_order :
    (∀ (cB : CodeBox) (env : Env) (rest : List ℚ) (a b reg : ℚ) (fl : Bool),
      natGet cB.stks cB.p = .ok ⟨rest ++ [b, a], reg, fl⟩ →
        cB.Exe env '-' = .ok (cB.setStack ⟨rest ++ [b - a], reg, fl⟩, false) ∧
        cB.Exe env '+' = .ok (cB.setStack ⟨rest ++ [b + a], reg, fl⟩, false) ∧
        cB.Exe env '*' = .ok (cB.setStack ⟨rest ++ [b * a], reg, fl⟩, false) ∧
        cB.Exe env ',' = .ok (cB.setStack ⟨rest ++ [b / a], reg, fl⟩, false) ∧
        (ratTrunc a ≠ 0 →
          cB.Exe env '%' =
            .ok (cB.setStack ⟨rest ++ [((ratTrunc b).tmod (ratTrunc a) : ℚ)], reg, fl⟩,
              false)) ∧
        (ratTrunc a = 0 → cB.Exe env '%' = .error .DivideByZero) ∧
        cB.Exe env '=' =
          .ok (cB.setStack ⟨rest ++ [if b = a then 1 else 0], reg, fl⟩, false) ∧
        cB.Exe env ')' =
          .ok (cB.setStack ⟨rest ++ [if b > a then 1 else 0], reg, fl⟩, false) ∧
        cB.Exe env '(' =
          .ok (cB.setStack ⟨rest ++ [if b < a then 1 else 0], reg, fl⟩, false)) ∧
    ((((baseBox false [5, 2]).Exe env0 '-').map (fun pr => pr.1.activeValues) =
        .ok (.ok [3])) ∧
     (((baseBox false [8, 2]).Exe env0 ',').map (fun pr => pr.1.activeValues) =
        .ok (.ok [4]))) := by
  constructor
  · intro cB env rest a b reg fl h
    have hp : cB.p < cB.stks.length := natGet_lt h
    have hset : ∀ s : Stack, natGet (cB.stks.set cB.p s) cB.p = .ok s :=
      fun s => natGet_set_self (by simpa using hp) s
    refine ⟨?_, ?_, ?_, ?_, ?_, ?_, ?_, ?_, ?_⟩
    · simp [Exe_sub, noHalt, CodeBox.Pop, CodeBox.Push, CodeBox.curStack,
        CodeBox.setStack, h, hset, Stack.Pop, Stack.Push, Bind.bind, Except.bind, Except.map,
        List.set_set]
    · simp [Exe_add, noHalt, CodeBox.Pop, CodeBox.Push, CodeBox.curStack,
        CodeBox.setStack, h, hset, Stack.Pop, Stack.Push, Bind.bind, Except.bind, Except.map,
        List.set_set, add_comm]
    · simp [Exe_mul, noHalt, CodeBox.Pop, CodeBox.Push, CodeBox.curStack,
        CodeBox.setStack, h, hset, Stack.Pop, Stack.Push, Bind.bind, Except.bind, Except.map,
        List.set_set, mul_comm]
    · simp [Exe_div, noHalt, CodeBox.Pop, CodeBox.Push, CodeBox.curStack,
        CodeBox.setStack, h, hset, Stack.Pop, Stack.Push, Bind.bind, Except.bind, Except.map,
        List.set_set]
    · intro hz
      simp [Exe_mod, noHalt, CodeBox.Pop, CodeBox.Push, CodeBox.curStack,
        CodeBox.setStack, h, hset, hz, Stack.Pop, Stack.Push, Bind.bind, Except.bind,
        Except.map, List.set_set]
    · intro hz
      simp [Exe_mod, noHalt, CodeBox.Pop, CodeBox.Push, CodeBox.curStack,
        CodeBox.setStack, h, hset, hz, Stack.Pop, Stack.Push, Bind.bind, Except.bind,
        Except.map, List.set_set]
    · simp [Exe_eqInstr, noHalt, CodeBox.Pop, CodeBox.Push, CodeBox.curStack,
        CodeBox.setStack, h, hset, Stack.Pop, Stack.Push, Bind.bind, Except.bind, Except.map,
        List.set_set, eq_comm]
    · simp [Exe_gt, noHalt, CodeBox.Pop, CodeBox.Push, CodeBox.curStack,
        CodeBox.setStack, h, hset, Stack.Pop, Stack.Push, Bind.bind, Except.bind, Except.map,
        List.set_set]
    · simp [Exe_lt, noHalt, CodeBox.Pop, CodeBox.Push, CodeBox.curStack,
        CodeBox.setStack, h, hset, Stack.Pop, Stack.Push, Bind.bind, Except.bind, Except.map,
        List.set_set]
  · constructor
    · norm_num [Exe_sub, noHalt, CodeBox.Pop, CodeBox.Push, CodeBox.curStack,
        CodeBox.setStack, CodeBox.activeValues, baseBox, env0, natGet, NewStack,
        Stack.Pop, Stack.Push, Bind.bind, Except.bind, Except.map]
    · norm_num [Exe_div, noHalt, CodeBox.Pop, CodeBox.Push, CodeBox.curStack,
        CodeBox.setStack, CodeBox.activeValues, baseBox, env0, natGet, NewStack,
        Stack.Pop, Stack.Push, Bind.bind, Except.bind, Except.map]

/-- C7 witness: the operand-order theorem applied at the concrete stack
[7,2]: subtraction pushes 7 - 2, and modulo (divisor 2, which truncates to
the nonzero integer 2) pushes tmod 7 2. -/
theorem binary_ops_operand_order_witness :
    ((baseBox false [7, 2]).Exe env0 '-' =
      .ok ((baseBox false [7, 2]).setStack ⟨[(7 : ℚ) - 2], 0, false⟩, false)) ∧
    ((baseBox false [7, 2]).Exe env0 '%' =
      .ok ((baseBox false [7, 2]).setStack
        ⟨[(((ratTrunc 7).tmod (ratTrunc 2) : Int) : ℚ)], 0, false⟩, false)) :=
  ⟨(binary_ops_operand_order.1 (baseBox false [7, 2]) env0 [] 2 7 0 false rfl).1,
   (binary_ops_operand_order.1 (baseBox false [7, 2]) env0 [] 2 7 0 false
      rfl).2.2.2.2.1 (by decide)⟩

/-- C5 counterexample: the whitespace-only script consisting of one space
character loads successfully (it is not rejected), contradicting the claim
that every whitespace-only program is rejected.  The loaded box is the
1-by-1 grid holding a space. -/
theorem load_accepts_space_counterexample :
    NewCodeBox [' '] [] false = .ok (baseBox false []) := rfl

/-- C5 (amended): program load fails (with the EmptyProgram configuration
error, before any instruction executes) exactly when the script is empty or
a single newline after carriage returns are stripped; every other script —
including whitespace-only ones such as a single space — loads successfully. -/
theorem load_rejects_iff_empty (script : List Char) (stack : List ℚ) (comp : Bool) :
    NewCodeBox script stack comp = .error .EmptyProgram ↔
      (stripCR script = [] ∨ stripCR script = ['\n']) := by
  unfold NewCodeBox
  simp only []
  split <;> simp_all

/-- C4 counterexample: the jump instruction `.` writes the popped
coordinates to the pointer without any wraparound, so a loaded program
reaches a state whose x coordinate is negative: with script ". " and
initial stack [-3, 0], one cycle pops y=0 and x=-3, sets the pointer to
(-3,0), moves right to (-2,0), and rests out of range. -/
theorem pointer_bounds_counterexample :
    (NewCodeBox ['.', ' '] [-3, 0] false =
      .ok { fX := 0, fY := 0, fDir := .Right, width := 2, height := 1,
            box := [['.', ' ']], stks := [NewStack [-3, 0]], p := 0,
            stringMode := none, compMode := false }) ∧
    (({ fX := 0, fY := 0, fDir := .Right, width := 2, height := 1,
        box := [['.', ' ']], stks := [NewStack [-3, 0]], p := 0,
        stringMode := none, compMode := false } : CodeBox).Swim env0).map
      (fun pr => (pr.1.fX, pr.2)) = .ok (-2, false) ∧
    ¬ (0 ≤ (-2 : Int)) := by
  refine ⟨rfl, ?_, by norm_num⟩
  rfl

/-- C4 (amended): Move — the pointer update used by normal post-instruction
movement and by `!` and `?` — preserves the pointer-bounds invariant
0 ≤ x < width and 0 ≤ y < height via wraparound; the jump instruction `.`
however writes popped coordinates directly, so it can leave the range (see
the counterexample). -/
theorem move_preserves_bounds (cB : CodeBox)
    (hx0 : 0 ≤ cB.fX) (hxw : cB.fX < (cB.width : Int))
    (hy0 : 0 ≤ cB.fY) (hyh : cB.fY < (cB.height : Int)) :
    0 ≤ cB.Move.fX ∧ cB.Move.fX < (cB.width : Int) ∧
      0 ≤ cB.Move.fY ∧ cB.Move.fY < (cB.height : Int) := by
  cases hd : cB.fDir <;>
    simp only [CodeBox.Move, hd] <;>
    split <;>
    refine ⟨by omega, by omega, by omega, by omega⟩

/-- C4 witness: the bounds-preservation theorem applied to the loaded
one-space box, whose pointer starts at (0,0). -/
theorem move_preserves_bounds_witness :
    0 ≤ (baseBox false []).Move.fX ∧
      (baseBox false []).Move.fX < ((baseBox false []).width : Int) ∧
      0 ≤ (baseBox false []).Move.fY ∧
      (baseBox false []).Move.fY < ((baseBox false []).height : Int) :=
  move_preserves_bounds (baseBox false []) (by decide) (by decide) (by decide)
    (by decide)

/-- c3Box: the program ".    " (pointer on the jump) with stack [3,0]. -/
def c3Box : CodeBox :=
  { fX := 0, fY := 0, fDir := .Right, width := 5, height := 1,
    box := [['.', ' ', ' ', ' ', ' ']], stks := [NewStack [3, 0]], p := 0,
    stringMode := none, compMode := false }

/-- C3 counterexample: with the program ".  " (pointer on the jump) and
stack [1,0], the cycle pops y=0 then x=1 and sets the pointer to (1,0), but
the normal post-instruction move still runs, so the pointer rests at (2,0)
— not at the popped coordinates (1,0) as the claim states. -/
theorem dot_jump_counterexample :
    (({ fX := 0, fY := 0, fDir := .Right, width := 3, height := 1,
        box := [['.', ' ', ' ']], stks := [NewStack [1, 0]], p := 0,
        stringMode := none, compMode := false } : CodeBox).Swim env0).map
      (fun pr => (pr.1.fX, pr.1.fY)) = .ok (2, 0) ∧
    ((2 : Int), (0 : Int)) ≠ ((1 : Int), (0 : Int)) := by
  refine ⟨rfl, by decide⟩

/-- C3 (amended): `.` pops y first, then x, and writes the (truncated)
coordinates to the pointer; it does not override the post-instruction
movement: Swim still advances the pointer one step in the current direction
from (x,y) (with wraparound), so the cycle ends one cell beyond the jump
target. -/
theorem dot_jump_then_move (cB : CodeBox) (env : Env) (row : List Char)
    (rest : List ℚ) (xv yv reg : ℚ) (fl : Bool)
    (hmode : cB.stringMode = none)
    (hrow : idxGet cB.box cB.fY = .ok row)
    (hcell : idxGet row cB.fX = .ok '.')
    (hstack : natGet cB.stks cB.p = .ok ⟨rest ++ [xv, yv], reg, fl⟩) :
    cB.Swim env =
      .ok (({ cB with
              fY := ratTrunc yv, fX := ratTrunc xv,
              stks := cB.stks.set cB.p ⟨rest, reg, fl⟩ }).Move, false) := by
  have hp : cB.p < cB.stks.length := natGet_lt hstack
  have hset : ∀ s : Stack, natGet (cB.stks.set cB.p s) cB.p = .ok s :=
    fun s => natGet_set_self (by simpa using hp) s
  simp [CodeBox.Swim, hrow, hcell, hmode, CodeBox.dispatchMove, Exe_dot, noHalt,
    CodeBox.Pop, CodeBox.curStack, CodeBox.setStack, hstack, hset, Stack.Pop,
    Bind.bind, Except.bind, Except.map, List.set_set]

/-- C3 witness: the jump theorem at c3Box: the cycle ends at (4,0), one
step beyond the jump target (3,0). -/
theorem dot_jump_then_move_witness :
    c3Box.Swim env0 =
      .ok (({ c3Box with
              fY := ratTrunc 0, fX := ratTrunc 3,
              stks := c3Box.stks.set c3Box.p ⟨[], 0, false⟩ }).Move, false) :=
  dot_jump_then_move c3Box env0 ['.', ' ', ' ', ' ', ' '] [] 3 0 0 false
    rfl rfl rfl rfl

/-- C6: popping a stack with zero elements faults with EmptyStack; a cycle
whose instruction pops from an empty active stack (here `~`) surfaces that
fault from Swim; and once a cycle faults, the whole run stops with that
fault — no further instructions execute, whatever fuel remains. -/
theorem empty_pop_faults_and_halts :
    (∀ (reg : ℚ) (fl : Bool), Stack.Pop ⟨[], reg, fl⟩ = .error .EmptyStack) ∧
    (∀ (cB : CodeBox) (env : Env) (row : List Char) (reg : ℚ) (fl : Bool),
      cB.stringMode = none →
      idxGet cB.box cB.fY = .ok row →
      idxGet row cB.fX = .ok '~' →
      natGet cB.stks cB.p = .ok ⟨[], reg, fl⟩ →
      cB.Swim env = .error .EmptyStack) ∧
    (∀ (cB : CodeBox) (env : Env) (es : List Env) (f : Fault),
      cB.Swim env = .error f →
      cB.RunN (env :: es) = .error f) := by
  refine ⟨?_, ?_, ?_⟩
  · intro reg fl
    rfl
  · intro cB env row reg fl hmode hrow hcell hstack
    simp [CodeBox.Swim, hrow, hcell, hmode, CodeBox.dispatchMove, Exe_tilde,
      noHalt, CodeBox.Pop, CodeBox.curStack, hstack, Stack.Pop, Bind.bind,
      Except.bind, Except.map]
  · intro cB env es f h
    simp [CodeBox.RunN, h, Bind.bind, Except.bind]

/-- c6Box: the program "~" with an empty initial stack. -/
def c6Box : CodeBox :=
  { fX := 0, fY := 0, fDir := .Right, width := 1, height := 1,
    box := [['~']], stks := [NewStack []], p := 0,
    stringMode := none, compMode := false }

/-- C6 witness: on c6Box the first cycle faults with EmptyStack and the
two-cycle run returns exactly that fault. -/
theorem empty_pop_faults_and_halts_witness :
    c6Box.RunN [env0, env0] = .error .EmptyStack :=
  empty_pop_faults_and_halts.2.2 c6Box env0 [env0] .EmptyStack
    (empty_pop_faults_and_halts.2.1 c6Box env0 ['~'] 0 false rfl rfl rfl rfl)

/-- C8: while a string delimiter q is active, any fetched byte r other than
q is pushed as its character code and dispatch is bypassed entirely — the
cycle never halts, whatever r is, `;` and the non-matching quote included —
after which the pointer moves and the delimiter stays active (the push
changes only the stack slice); fetching the matching delimiter itself
dispatches the quote instruction, which leaves string mode. -/
theorem string_mode_bypass :
    (∀ (cB : CodeBox) (env : Env) (row : List Char) (q r : Char) (cB1 : CodeBox),
      cB.stringMode = some q →
      idxGet cB.box cB.fY = .ok row →
      idxGet row cB.fX = .ok r →
      r ≠ q →
      cB.Push ((r.toNat : ℚ)) = .ok cB1 →
      cB.Swim env = .ok (cB1.Move, false)) ∧
    (∀ (cB : CodeBox) (env : Env) (row : List Char) (q : Char),
      cB.stringMode = some q →
      (q = '"' ∨ q = '\'') →
      idxGet cB.box cB.fY = .ok row →
      idxGet row cB.fX = .ok q →
      cB.Swim env = .ok (({ cB with stringMode := none }).Move, false)) := by
  constructor
  · intro cB env row q r cB1 hmode hrow hcell hne hpush
    simp [CodeBox.Swim, hrow, hcell, hmode, hne, hpush, Bind.bind, Except.bind]
  · intro cB env row q hmode hq hrow hcell
    rcases hq with hq | hq <;> subst hq <;>
      simp [CodeBox.Swim, hrow, hcell, hmode, CodeBox.dispatchMove,
        Exe_doubleQuote, Exe_singleQuote, CodeBox.toggleQuote, Bind.bind,
        Except.bind, Except.map]

/-- c8Box: the program ";" with string mode already active (delimiter `"`)
and an empty active stack. -/
def c8Box : CodeBox :=
  { fX := 0, fY := 0, fDir := .Right, width := 1, height := 1,
    box := [[';']], stks := [NewStack []], p := 0,
    stringMode := some '"', compMode := false }

/-- C8 witness: inside a string literal the terminator byte `;` (code 59)
is pushed instead of halting the program. -/
theorem string_mode_bypass_witness :
    c8Box.Swim env0 =
      .ok ((c8Box.setStack ⟨[(59 : ℚ)], 0, false⟩).Move, false) :=
  string_mode_bypass.1 c8Box env0 [';'] '"' ';'
    (c8Box.setStack ⟨[(59 : ℚ)], 0, false⟩) rfl rfl rfl (by decide) rfl
